import Mathlib

/-!
Shallow embedding of the cuckoo-lite task-queue core
(lib/cuckoo/core/database.py) and artifact sink
(modules/reporting/mongodb.py).

Modelling conventions:
* machine time (datetime.now) is an explicit `now : Nat` argument;
* the backing store is reliable: the SQLAlchemyError handlers for
  transient connection failures collapse, but the deterministic commit
  failures that the code itself provokes (unique-index violations on
  samples and tags, the CHECK constraint generated for the status Enum
  on the SQLite backend) are modelled, together with their rollbacks;
* Python str values that the code takes apart character by character
  (the tag strings fed through replace/split/join) are modelled as
  `List Char`; opaque string fields stay `String`;
* each Database method opens its own session, so state is threaded
  explicitly as a `Db` value; commits replace it, rollbacks keep it.
-/

set_option maxRecDepth 10000

namespace Cuckoo

/-- Python strings manipulated character by character. -/
abbrev PyStr := List Char

/-- Python str.split(",") : always returns at least one piece; an empty
string yields one empty piece. -/
def pySplitComma : PyStr → List PyStr
  | [] => [[]]
  | c :: cs =>
    let r := pySplitComma cs
    if c = ',' then [] :: r
    else
      match r with
      | [] => [[c]]
      | p :: ps => (c :: p) :: ps

/-- Python ",".join(pieces). -/
def pyJoinComma : List PyStr → PyStr
  | [] => []
  | [x] => x
  | x :: y :: xs => x ++ ',' :: pyJoinComma (y :: xs)

/-- tags.replace(" ", "").split(",") from Database.add: every space
character (U+0020) is removed from the whole string, then the result is
split on commas. -/
def splitTags (s : PyStr) : List PyStr :=
  pySplitComma (s.filter (fun c => c != ' '))

def TASK_PENDING : String := "pending"

def TASK_RUNNING : String := "running"

def TASK_COMPLETED : String := "completed"

def TASK_RECOVERED : String := "recovered"

def TASK_REPORTED : String := "reported"

def TASK_FAILED_ANALYSIS : String := "failed_analysis"

def TASK_FAILED_PROCESSING : String := "failed_processing"

/-- The values admitted by the Enum column on Task.status.  The two
failed_* constants are declared in the source but are not part of the
Enum, so the SQLite CHECK constraint generated for the column rejects
them at commit time. -/
def task_status_enum : List String :=
  [TASK_PENDING, TASK_RUNNING, TASK_COMPLETED, TASK_REPORTED, TASK_RECOVERED]

/-- Tag row: unique name, generated id. -/
structure Tag where
  id : Nat
  name : PyStr
deriving DecidableEq

/-- Sample row: the digest fields carry a composite unique index
(md5, crc32, sha1, sha256, sha512). -/
structure Sample where
  id : Nat
  file_size : Nat
  file_type : String
  md5 : String
  crc32 : String
  sha1 : String
  sha256 : String
  sha512 : String
  ssdeep : Option String
deriving DecidableEq

/-- Task row; tags holds the ids from the tasks_tags association table. -/
structure Task where
  id : Nat
  target : String
  category : String
  timeout : Int
  priority : Int
  custom : String
  package : String
  options : String
  platform : String
  memory : Bool
  enforce_timeout : Bool
  clock : Nat
  added_on : Nat
  started_on : Option Nat
  completed_on : Option Nat
  status : String
  sample_id : Option Nat
  tags : List Nat
deriving DecidableEq

/-- The whole SQL store, with the id counters the autoincrement primary
keys provide. -/
structure Db where
  samples : List Sample
  tags : List Tag
  tasks : List Task
  nextSampleId : Nat
  nextTagId : Nat
  nextTaskId : Nat
deriving DecidableEq

/-- Digest/size/type data the File object computes for a path. -/
structure FileData where
  md5 : String
  crc32 : String
  sha1 : String
  sha256 : String
  sha512 : String
  file_size : Nat
  file_type : String
  ssdeep : Option String
deriving DecidableEq

/-- The obj argument of Database.add: a File or a URL. -/
inductive SubmitObj where
  | file (file_path : String) (data : FileData)
  | url (url : String)
deriving DecidableEq

/-- Well-formedness the schema guarantees: primary keys unique and below
the autoincrement counters, tag names unique (Tag.name is a unique
column). -/
def Db.WF (db : Db) : Prop :=
  (db.tasks.map Task.id).Nodup ∧ (∀ t ∈ db.tasks, t.id < db.nextTaskId) ∧
  (db.tags.map Tag.id).Nodup ∧ (db.tags.map Tag.name).Nodup ∧
  (∀ g ∈ db.tags, g.id < db.nextTagId) ∧
  (db.samples.map Sample.id).Nodup ∧ (∀ s ∈ db.samples, s.id < db.nextSampleId)

instance : DecidablePred Db.WF := fun db => by
  unfold Db.WF
  infer_instance

/-- Result of Database.set_status.  The method returns None on every
path; when the task id does not exist, row is None and the attribute
assignment raises an uncaught AttributeError (attrError). -/
inductive SetStatusResult where
  | ok (db : Db)
  | attrError
deriving DecidableEq

/-- The row mutations Database.set_status performs before committing:
the status is assigned unconditionally, started_on is overwritten when
the new status is running, completed_on when it is completed.  No other
status touches the timestamps. -/
def applyStatus (status : String) (now : Nat) (t : Task) : Task :=
  let t1 := { t with status := status }
  if status == TASK_RUNNING then { t1 with started_on := some now }
  else if status == TASK_COMPLETED then { t1 with completed_on := some now }
  else t1

/-- Database.set_status: fetch the row by primary key, assign the
requested status (no state-machine validation), stamp started_on or
completed_on for running/completed, commit.  A status outside the Enum
makes the commit fail; the handler rolls back, leaving the store
unchanged.  A missing row raises AttributeError (not caught: only
SQLAlchemyError is). -/
def set_status (db : Db) (task_id : Nat) (status : String) (now : Nat) : SetStatusResult :=
  match db.tasks.find? (fun t => t.id == task_id) with
  | none => SetStatusResult.attrError
  | some _ =>
    if task_status_enum.contains status then
      SetStatusResult.ok { db with
        tasks := db.tasks.map (fun t => if t.id == task_id then applyStatus status now t else t) }
    else
      SetStatusResult.ok db

/-- The ordering of the fetch query: ORDER BY priority DESC, added_on.
x sorts strictly before b under that order. -/
def betterTask (x b : Task) : Prop :=
  b.priority < x.priority ∨ (x.priority = b.priority ∧ x.added_on < b.added_on)

instance (x b : Task) : Decidable (betterTask x b) := by
  unfold betterTask
  infer_instance

/-- .first() of the ordered query: the element sorting first, ties beyond
(priority, added_on) resolved by table order. -/
def pickBest : List Task → Option Task
  | [] => none
  | t :: ts =>
    match pickBest ts with
    | none => some t
    | some b => if betterTask b t then some b else some t

/-- First half of Database.fetch: one session selects the first pending
row of the ordered query and commits nothing. -/
def fetchSelect (db : Db) : Option Task :=
  pickBest (db.tasks.filter (fun t => t.status == TASK_PENDING))

/-- Second half of Database.fetch (lock=True): a separate session inside
set_status marks the previously selected row running, then the first
session refreshes the row.  The two halves are independent transactions. -/
def fetchLock (db : Db) (row : Task) (now : Nat) : Option Task × Db :=
  match set_status db row.id TASK_RUNNING now with
  | SetStatusResult.ok db2 => (db2.tasks.find? (fun t => t.id == row.id), db2)
  | SetStatusResult.attrError => (none, db)

/-- Database.fetch: select the first pending row; when lock is set, mark
it running through set_status and return the refreshed row. -/
def fetch (db : Db) (lock : Bool) (now : Nat) : Option Task × Db :=
  match fetchSelect db with
  | none => (none, db)
  | some row => if lock then fetchLock db row now else (some row, db)

/-- Database._get_or_create for Tag, iterated over the split labels of
Database.add.  Lookups run against the committed rows only (a created
instance is not added to the session until the final commit flushes the
task), and fresh rows receive consecutive ids at that commit.  Returns
the tag ids appended to the task and the created rows in creation
order. -/
def resolveTags (committed : List Tag) (nid : Nat) : List PyStr → List Nat × List Tag
  | [] => ([], [])
  | l :: ls =>
    match committed.find? (fun g => g.name == l) with
    | some g =>
      let r := resolveTags committed nid ls
      (g.id :: r.1, r.2)
    | none =>
      let r := resolveTags committed (nid + 1) ls
      (nid :: r.1, Tag.mk nid l :: r.2)

/-- Does a sample row collide with the composite unique hash index? -/
def sameHashKey (s : Sample) (fd : FileData) : Bool :=
  s.md5 == fd.md5 && s.crc32 == fd.crc32 && s.sha1 == fd.sha1 &&
    s.sha256 == fd.sha256 && s.sha512 == fd.sha512

/-- The sample insert of Database.add for a File object: insert and
commit; on the IntegrityError from the hash_index unique constraint,
roll back and re-read the existing row by md5 (.first()).  The re-read
returning no row would crash later on sample.id; that branch is encoded
as none. -/
def sampleUpsert (db : Db) (fd : FileData) : Option Nat × Db :=
  if db.samples.any (fun s => sameHashKey s fd) then
    match db.samples.find? (fun s => s.md5 == fd.md5) with
    | some s => (some s.id, db)
    | none => (none, db)
  else
    let s : Sample := ⟨db.nextSampleId, fd.file_size, fd.file_type, fd.md5, fd.crc32,
      fd.sha1, fd.sha256, fd.sha512, fd.ssdeep⟩
    (some s.id,
      { db with
          samples := db.samples ++ [s],
          nextSampleId := db.nextSampleId + 1 })

/-- The tail of Database.add once the Task object exists: field
assignments, tag resolution, clock handling (a datetime clock is taken
as is, a missing one leaves the column default datetime.now), final
commit.  The commit fails and rolls back when the flushed new tag rows
violate the unique name column. -/
def finishAdd (db : Db) (target : String) (category : String) (sample_id : Option Nat)
    (timeout : Int) (package : String) (options : String) (priority : Int)
    (custom : String) (platform : String) (tags : PyStr) (memory : Bool)
    (enforce_timeout : Bool) (clock : Option Nat) (now : Nat) : Option Nat × Db :=
  let r := if tags.isEmpty then ([], []) else resolveTags db.tags db.nextTagId (splitTags tags)
  let clockVal := match clock with
    | some c => c
    | none => now
  let task : Task := ⟨db.nextTaskId, target, category, timeout, priority, custom, package,
    options, platform, memory, enforce_timeout, clockVal, now, none, none,
    TASK_PENDING, sample_id, r.1⟩
  if (r.2.map Tag.name).Nodup then
    (some task.id,
      { db with
          tags := db.tags ++ r.2,
          tasks := db.tasks ++ [task],
          nextTagId := db.nextTagId + r.2.length,
          nextTaskId := db.nextTaskId + 1 })
  else
    (none, db)

/-- Database.add.  The falsy-normalisation of timeout and priority (if
not timeout / if not priority) only rewrites the integer 0; negative
values pass through.  For a File the sample upsert commits first in its
own transaction, so it survives a later task-commit rollback. -/
def add (db : Db) (obj : SubmitObj) (timeout : Int) (package : String) (options : String)
    (priority : Int) (custom : String) (platform : String) (tags : PyStr)
    (memory : Bool) (enforce_timeout : Bool) (clock : Option Nat) (now : Nat) :
    Option Nat × Db :=
  let timeout := if timeout == 0 then 0 else timeout
  let priority := if priority == 0 then 1 else priority
  match obj with
  | SubmitObj.file file_path fd =>
    match sampleUpsert db fd with
    | (some sid, db2) =>
      finishAdd db2 file_path ("file") (some sid) timeout package options priority
        custom platform tags memory enforce_timeout clock now
    | (none, db2) => (none, db2)
  | SubmitObj.url u =>
    finishAdd db u ("url") none timeout package options priority
      custom platform tags memory enforce_timeout clock now

/-- Database.add_path: rejects an empty or non-existing path, then
delegates to add with the File object for the path.  fs stands for the
filesystem: the digest data File(file_path) resolves, when the path
exists. -/
def add_path (fs : String → Option FileData) (db : Db) (file_path : String)
    (timeout : Int) (package : String) (options : String) (priority : Int)
    (custom : String) (platform : String) (tags : PyStr) (memory : Bool)
    (enforce_timeout : Bool) (clock : Option Nat) (now : Nat) : Option Nat × Db :=
  if file_path == "" then (none, db)
  else
    match fs file_path with
    | none => (none, db)
    | some fd =>
      let timeout := if timeout == 0 then 0 else timeout
      let priority := if priority == 0 then 1 else priority
      add db (SubmitObj.file file_path fd) timeout package options priority
        custom platform tags memory enforce_timeout clock now

/-- Database.add_url. -/
def add_url (db : Db) (url : String)
    (timeout : Int) (package : String) (options : String) (priority : Int)
    (custom : String) (platform : String) (tags : PyStr) (memory : Bool)
    (enforce_timeout : Bool) (clock : Option Nat) (now : Nat) : Option Nat × Db :=
  let timeout := if timeout == 0 then 0 else timeout
  let priority := if priority == 0 then 1 else priority
  add db (SubmitObj.url url) timeout package options priority
    custom platform tags memory enforce_timeout clock now

/-- Database.view_task: primary-key lookup. -/
def view_task (db : Db) (task_id : Nat) : Option Task :=
  db.tasks.find? (fun t => t.id == task_id)

/-- Resolve a tag id of the association table to its name. -/
def lookupTagName (gs : List Tag) (i : Nat) : Option PyStr :=
  (gs.find? (fun g => g.id == i)).map Tag.name

/-- The list comprehension of Database.reschedule: the names of the
tags attached to a task. -/
def taskTagNames (gs : List Tag) (t : Task) : List PyStr :=
  t.tags.filterMap (fun i => lookupTagName gs i)

/-- The status assignment of Database.reschedule: a raw write of
recovered (not going through set_status), committed on its own. -/
def markRecovered (db : Db) (task_id : Nat) : Db :=
  { db with tasks := db.tasks.map (fun t =>
      if t.id == task_id then { t with status := TASK_RECOVERED } else t) }

/-- Database.reschedule: read the task, mark it recovered, join the tag
names back into a comma string, and resubmit through add_path or
add_url by category.  A category that is neither would leave the local
add unbound and raise NameError after the recovered mark committed;
that branch yields no new task. -/
def reschedule (fs : String → Option FileData) (db : Db) (task_id : Nat) (now : Nat) :
    Option Nat × Db :=
  match view_task db task_id with
  | none => (none, db)
  | some task =>
    let db1 := markRecovered db task_id
    let names := taskTagNames db.tags task
    let tagsStr := if names.isEmpty then ([] : PyStr) else pyJoinComma names
    if task.category == ("file") then
      add_path fs db1 task.target task.timeout task.package task.options task.priority
        task.custom task.platform tagsStr task.memory task.enforce_timeout
        (some task.clock) now
    else if task.category == ("url") then
      add_url db1 task.target task.timeout task.package task.options task.priority
        task.custom task.platform tagsStr task.memory task.enforce_timeout
        (some task.clock) now
    else
      (none, db1)

/-- A GridFS file document: the unique sparse index sha256_unique keys
blobs by their sha256 digest. -/
structure Blob where
  id : Nat
  sha256 : String
  filename : String
  content : List Nat
deriving DecidableEq

/-- The fs.files collection plus the id counter of the driver. -/
structure Gfs where
  files : List Blob
  nextId : Nat
deriving DecidableEq

/-- db.fs.files.find_one on the sha256 field. -/
def find_one (g : Gfs) (h : String) : Option Blob :=
  g.files.find? (fun b => b.sha256 == h)

/-- The opening read of MongoDB.store_file: the id of an existing blob
with this digest, when there is one. -/
def storeFileCheck (g : Gfs) (h : String) : Option Nat :=
  (find_one g h).map Blob.id

/-- The write half of MongoDB.store_file: new_file/write/close.  close
raises FileExists when the unique index already holds the digest (a
concurrent writer won); the handler re-reads the winner and returns its
id instead. -/
def storeFileClose (g : Gfs) (h : String) (fname : String) (content : List Nat) :
    Nat × Gfs :=
  match find_one g h with
  | some e => (e.id, g)
  | none => (g.nextId, ⟨g.files ++ [⟨g.nextId, h, fname, content⟩], g.nextId + 1⟩)

/-- MongoDB.store_file: return the existing id when the digest is
already stored, otherwise write the chunks and close. -/
def store_file (g : Gfs) (h : String) (fname : String) (content : List Nat) :
    Nat × Gfs :=
  match storeFileCheck g h with
  | some i => (i, g)
  | none => storeFileClose g h fname content

/-- The sha256 uniqueness the sha256_unique index enforces. -/
def Gfs.WF (g : Gfs) : Prop :=
  (g.files.map Blob.sha256).Nodup ∧ ∀ b ∈ g.files, b.id < g.nextId

instance : DecidablePred Gfs.WF := fun g => by
  unfold Gfs.WF
  infer_instance

/-- A Python value as MongoDB.run sees it: a scalar or a reference to a
dict on the heap. -/
inductive PVal where
  | str (s : String)
  | num (n : Int)
  | ref (a : Nat)
deriving DecidableEq

/-- A Python dict: insertion-ordered key/value pairs. -/
abbrev PObj := List (String × PVal)

/-- The Python object heap; an address is an index. -/
structure Heap where
  objs : List PObj
deriving DecidableEq

def Heap.read (h : Heap) (a : Nat) : Option PObj :=
  h.objs[a]?

def Heap.alloc (h : Heap) (o : PObj) : Nat × Heap :=
  (h.objs.length, ⟨h.objs ++ [o]⟩)

def Heap.write (h : Heap) (a : Nat) (o : PObj) : Heap :=
  ⟨h.objs.set a o⟩

/-- d[k] on a dict. -/
def objGet (o : PObj) (k : String) : Option PVal :=
  (o.find? (fun kv => kv.1 == k)).map Prod.snd

/-- d[k] = v on a dict: overwrite in place or append. -/
def objSet (o : PObj) (k : String) (v : PVal) : PObj :=
  if o.any (fun kv => kv.1 == k) then
    o.map (fun kv => if kv.1 == k then (k, v) else kv)
  else
    o ++ [(k, v)]

/-- d.update(other). -/
def objUpdate (o other : PObj) : PObj :=
  other.foldl (fun acc kv => objSet acc kv.1 kv.2) o

/-- h[a][k] for a dict-valued address. -/
def heapGet (h : Heap) (a : Nat) (k : String) : Option PVal :=
  (h.read a).bind (fun o => objGet o k)

/-- MongoDB.run on the heap of Python dicts.  results is the address of
the caller's dictionary; sampleValid and sampleId stand for
File(self.file_path).valid() and the blob id store_file returns (the
GridFS side is modelled separately by store_file).  The copy
report = dict(results) is shallow: the fresh dict shares every nested
reference.  When the category is file and the sample is valid, the
target key of the copy is rebound to a fresh dict holding file_id, which
is then updated from the original target dict.  A missing key on the
read paths raises (KeyError/TypeError), modelled as none.  The final
save and disconnect touch no Python object. -/
def mongoRun (h : Heap) (results : Nat) (sampleValid : Bool) (sampleId : Int) :
    Option (Nat × Heap) :=
  match h.read results with
  | none => none
  | some resObj =>
    let ar := h.alloc resObj
    let report := ar.1
    let h1 := ar.2
    match objGet resObj ("info") with
    | some (PVal.ref infoA) =>
      match heapGet h1 infoA ("category") with
      | some v =>
        if v == PVal.str ("file") then
          if sampleValid then
            match objGet resObj ("target") with
            | some (PVal.ref tgtA) =>
              match heapGet h1 tgtA ("file") with
              | some (PVal.ref fileA) =>
                match heapGet h1 fileA ("name") with
                | some (PVal.str _) =>
                  let an := h1.alloc [(("file_id"), PVal.num sampleId)]
                  let newTgt := an.1
                  let h2 := an.2
                  let h3 := match h2.read report with
                    | some rObj => h2.write report (objSet rObj ("target") (PVal.ref newTgt))
                    | none => h2
                  match h3.read tgtA, h3.read newTgt with
                  | some tObj, some nObj =>
                    some (report, h3.write newTgt (objUpdate nObj tObj))
                  | _, _ => none
                | _ => none
              | _ => none
            | _ => none
          else
            some (report, h1)
        else
          some (report, h1)
      | none => none
    | _ => none

/-- The empty store a fresh schema provides. -/
def emptyDb : Db := ⟨[], [], [], 0, 0, 0⟩

/-- A pending file task used to build the concrete stores below. -/
def baseTask : Task :=
  ⟨0, ("a.exe"), ("file"), 0, 1, "", "", "", "", false, false, 0, 0, none, none,
    TASK_PENDING, none, []⟩

/-- Store with a single pending task, id 1. -/
def c1db : Db := ⟨[], [], [{ baseTask with id := 1 }], 0, 0, 2⟩

/-- Two workers both inside Database.fetch over c1db: each runs the
select half before either runs the lock half (the two halves are
separate transactions, so nothing prevents this interleaving); the
result is the pair of task ids the two fetch calls return. -/
def c1schedule : Option Nat × Option Nat :=
  match fetchSelect c1db, fetchSelect c1db with
  | some r1, some r2 =>
    let a := fetchLock c1db r1 10
    let b := fetchLock a.2 r2 11
    (a.1.map Task.id, b.1.map Task.id)
  | _, _ => (none, none)

/-- Store with three pending tasks of priorities 1, 5, 3 submitted in
that order. -/
def c3db : Db :=
  ⟨[], [],
    [{ baseTask with id := 1, priority := 1, added_on := 0 },
     { baseTask with id := 2, priority := 5, added_on := 1 },
     { baseTask with id := 3, priority := 3, added_on := 2 }], 0, 0, 4⟩

def c3r1 : Option Task × Db := fetch c3db true 10

def c3r2 : Option Task × Db := fetch c3r1.2 true 11

def c3r3 : Option Task × Db := fetch c3r2.2 true 12

def c3r4 : Option Task × Db := fetch c3r3.2 true 13

/-- The general contract of fetch with lock: empty queue gives None and
an unchanged store, otherwise the returned task was pending with
maximal priority (earliest added_on among those) and is returned and
stored as running with started_on stamped. -/
def fetchSpec (db : Db) (now : Nat) : Prop :=
  (db.tasks.filter (fun t => t.status == TASK_PENDING) = [] →
    fetch db true now = (none, db)) ∧
  ((∃ p ∈ db.tasks, p.status = TASK_PENDING) →
    ∃ t db2, fetch db true now = (some t, db2) ∧
      t.status = TASK_RUNNING ∧ t.started_on = some now ∧ t ∈ db2.tasks ∧
      ∃ t0 ∈ db.tasks, t0.status = TASK_PENDING ∧
        t = applyStatus TASK_RUNNING now t0 ∧
        ∀ u ∈ db.tasks, u.status = TASK_PENDING →
          u.priority ≤ t0.priority ∧
            (u.priority = t0.priority → t0.added_on ≤ u.added_on))

/-- The concrete priority example of the claim: sequential claims over
c3db return priorities 5, 3, 1 and then None. -/
def c3chain : Prop :=
  c3r1.1.map Task.priority = some 5 ∧ c3r2.1.map Task.priority = some 3 ∧
  c3r3.1.map Task.priority = some 1 ∧ c3r4.1 = none ∧
  c3r1.1.map Task.id = some 2 ∧ c3r2.1.map Task.id = some 3 ∧
  c3r3.1.map Task.id = some 1

/-- Store with a single pending task, id 1 (set_status fixture). -/
def c4db : Db := ⟨[], [], [{ baseTask with id := 1 }], 0, 0, 2⟩

/-- c4db after set_status(1, reported). -/
def c4db2 : Db :=
  ⟨[], [], [{ baseTask with id := 1, status := TASK_REPORTED }], 0, 0, 2⟩

/-- Store with one running task whose started_on is already set. -/
def c6db : Db :=
  ⟨[], [],
    [{ baseTask with id := 1, status := TASK_RUNNING, started_on := some 5 }],
    0, 0, 2⟩

/-- c6db after set_status(1, running) at time 99: started_on is
overwritten. -/
def c6db2 : Db :=
  ⟨[], [],
    [{ baseTask with id := 1, status := TASK_RUNNING, started_on := some 99 }],
    0, 0, 2⟩

/-- A concrete digest set for the dedup witnesses. -/
def c2fd : FileData := ⟨("m5"), ("c3"), ("s1"), ("s256"), ("s512"), 10, ("exe"), none⟩

/-- First submission of c2fd. -/
def c2r1 : Option Nat × Db :=
  add emptyDb (SubmitObj.file ("a.exe") c2fd) 0 ("") ("") 1 ("") ("") [] false false
    none 1

/-- Second submission of the same content. -/
def c2r2 : Option Nat × Db :=
  add c2r1.2 (SubmitObj.file ("b.exe") c2fd) 0 ("") ("") 1 ("") ("") [] false false
    none 2

/-- Concrete tagged file task for the reschedule witness: tags a and b,
priority 5, category file. -/
def c5fd : FileData := ⟨("m"), ("c"), ("s"), ("s2"), ("s5"), 4, ("exe"), none⟩

def c5task : Task :=
  ⟨7, ("t.exe"), ("file"), 0, 5, "", "", "", "", false, false, 3, 2, some 4, some 6,
    TASK_COMPLETED, some 0, [1, 2]⟩

def c5db : Db :=
  ⟨[⟨0, 4, ("exe"), ("m"), ("c"), ("s"), ("s2"), ("s5"), none⟩],
    [⟨1, ('a' :: [])⟩, ⟨2, ('b' :: [])⟩], [c5task], 1, 3, 8⟩

def c5fs : String → Option FileData :=
  fun p => if p == ("t.exe") then some c5fd else none

/-- Empty blob store for the C9 witness. -/
def c9gfs : Gfs := ⟨[], 0⟩

/-- Store holding a url task whose single tag has the empty name (such a
tag is reachable: submitting with the tag string consisting of one
space creates it, since every space is stripped before the split). -/
def c5edb : Db :=
  ⟨[], [⟨1, []⟩],
    [⟨3, ("u"), ("url"), 0, 1, "", "", "", "", false, false, 0, 0, none, none,
      TASK_PENDING, none, [1]⟩], 0, 2, 4⟩

/-- c5edb after rescheduling task 3: the original is recovered, the new
task 4 is pending but has lost the tag set, because the rejoined tag
string of the single empty name is the empty string, which is falsy and
skipped by Database.add. -/
def c5edb2 : Db :=
  ⟨[], [⟨1, []⟩],
    [⟨3, ("u"), ("url"), 0, 1, "", "", "", "", false, false, 0, 0, none, none,
      TASK_RECOVERED, none, [1]⟩,
     ⟨4, ("u"), ("url"), 0, 1, "", "", "", "", false, false, 0, 9, none, none,
      TASK_PENDING, none, []⟩], 0, 2, 5⟩

/-- Concrete results-document heap for the C10 witness: address 0 is the
results dict, 1 its info dict, 2 its target dict, 3 the file dict. -/
def c10heap : Heap :=
  ⟨[[(("info"), PVal.ref 1), (("target"), PVal.ref 2)],
    [(("category"), PVal.str ("file"))],
    [(("file"), PVal.ref 3)],
    [(("name"), PVal.str ("s.exe"))]]⟩

/-- The heap mongoRun produces from c10heap: the four original objects
unchanged, the shallow report copy at 4 (target rebound to 5) and the
fresh target dict at 5. -/
def c10out : Heap :=
  ⟨[[(("info"), PVal.ref 1), (("target"), PVal.ref 2)],
    [(("category"), PVal.str ("file"))],
    [(("file"), PVal.ref 3)],
    [(("name"), PVal.str ("s.exe"))],
    [(("info"), PVal.ref 1), (("target"), PVal.ref 5)],
    [(("file_id"), PVal.num 7), (("file"), PVal.ref 3)]]⟩

/-! Helper lemmas. -/

theorem find_by_key {α β : Type} [BEq β] [LawfulBEq β] (key : α → β) {l : List α} {x : α}
    (hx : x ∈ l) (hn : (l.map key).Nodup) :
    l.find? (fun y => key y == key x) = some x := by
  induction l with
  | nil => cases hx
  | cons a as ih =>
    simp only [List.map_cons, List.nodup_cons] at hn
    rcases List.mem_cons.mp hx with h | h
    · subst h
      simp [List.find?_cons]
    · rw [List.find?_cons]
      have hne : key a ≠ key x := by
        intro he
        exact hn.1 (he ▸ List.mem_map_of_mem key h)
      have : (key a == key x) = false := by
        simpa using hne
      rw [this]
      exact ih h hn.2

theorem filter_by_key {α β : Type} [BEq β] [LawfulBEq β] (key : α → β) {l : List α} {x : α}
    (hx : x ∈ l) (hn : (l.map key).Nodup) :
    l.filter (fun y => key y == key x) = [x] := by
  induction l with
  | nil => cases hx
  | cons a as ih =>
    simp only [List.map_cons, List.nodup_cons] at hn
    rcases List.mem_cons.mp hx with h | h
    · subst h
      rw [List.filter_cons]
      have hx1 : (key x == key x) = true := by simp
      rw [if_pos hx1]
      have hx2 : as.filter (fun y => key y == key x) = [] := by
        apply List.filter_eq_nil_iff.mpr
        intro b hb
        simp only [beq_iff_eq]
        intro he
        exact hn.1 (he ▸ List.mem_map_of_mem key hb)
      rw [hx2]
    · rw [List.filter_cons]
      have hne : key a ≠ key x := by
        intro he
        exact hn.1 (he ▸ List.mem_map_of_mem key h)
      have hf : (key a == key x) = false := by simpa using hne
      rw [hf]
      simp only [Bool.false_eq_true, if_false]
      exact ih h hn.2

theorem find?_map_pred {α : Type} (g : α → α) (p : α → Bool) (l : List α)
    (hp : ∀ x, p (g x) = p x) :
    (l.map g).find? p = (l.find? p).map g := by
  induction l with
  | nil => rfl
  | cons a as ih =>
    simp only [List.map_cons, List.find?_cons, hp a]
    cases hpa : p a <;> simp [ih]

theorem find?_append_middle {α : Type} (p : α → Bool) (l1 l2 : List α) (x : α)
    (hx : p x = false) :
    (l1 ++ x :: l2).find? p = (l1 ++ l2).find? p := by
  rw [List.find?_append, List.find?_append, List.find?_cons, hx]

theorem betterTask_asymm {a b : Task} (h : betterTask a b) : ¬ betterTask b a := by
  unfold betterTask at *
  omega

theorem betterTask_irrefl (a : Task) : ¬ betterTask a a := by
  unfold betterTask
  omega

theorem betterTask_neg_trans {a b c : Task} (h1 : ¬ betterTask a b)
    (h2 : ¬ betterTask b c) : ¬ betterTask a c := by
  unfold betterTask at *
  omega

theorem pickBest_eq_none : ∀ {l : List Task}, pickBest l = none → l = [] := by
  intro l h
  cases l with
  | nil => rfl
  | cons t ts =>
    cases hp : pickBest ts with
    | none => simp [pickBest, hp] at h
    | some b =>
      simp only [pickBest, hp] at h
      by_cases hb : betterTask b t
      · rw [if_pos hb] at h; cases h
      · rw [if_neg hb] at h; cases h

theorem pickBest_mem : ∀ {l : List Task} {b : Task}, pickBest l = some b → b ∈ l := by
  intro l
  induction l with
  | nil => intro b h; cases h
  | cons t ts ih =>
    intro b h
    cases hp : pickBest ts with
    | none =>
      simp only [pickBest, hp] at h
      injection h with h
      subst h
      exact List.mem_cons_self ..
    | some b0 =>
      simp only [pickBest, hp] at h
      by_cases hb : betterTask b0 t
      · rw [if_pos hb] at h
        injection h with h
        subst h
        exact List.mem_cons_of_mem _ (ih hp)
      · rw [if_neg hb] at h
        injection h with h
        subst h
        exact List.mem_cons_self ..

theorem pickBest_best : ∀ {l : List Task} {b : Task}, pickBest l = some b →
    ∀ x ∈ l, ¬ betterTask x b := by
  intro l
  induction l with
  | nil => intro b h; cases h
  | cons t ts ih =>
    intro b h x hx
    cases hp : pickBest ts with
    | none =>
      simp only [pickBest, hp] at h
      injection h with h
      subst h
      have hts := pickBest_eq_none hp
      subst hts
      rcases List.mem_cons.mp hx with rfl | hx
      · exact betterTask_irrefl _
      · cases hx
    | some b0 =>
      simp only [pickBest, hp] at h
      by_cases hb : betterTask b0 t
      · rw [if_pos hb] at h
        injection h with h
        subst h
        rcases List.mem_cons.mp hx with rfl | hx
        · exact betterTask_asymm hb
        · exact ih hp x hx
      · rw [if_neg hb] at h
        injection h with h
        subst h
        rcases List.mem_cons.mp hx with rfl | hx
        · exact betterTask_irrefl _
        · exact betterTask_neg_trans (ih hp x hx) hb

theorem pySplitComma_no_comma {s : PyStr} (h : ',' ∉ s) : pySplitComma s = [s] := by
  induction s with
  | nil => rfl
  | cons c cs ih =>
    have hc : c ≠ ',' := fun he => h (he ▸ List.mem_cons_self ..)
    have hcs : ',' ∉ cs := fun hm => h (List.mem_cons_of_mem _ hm)
    simp [pySplitComma, hc, ih hcs]

theorem pySplitComma_append {x t : PyStr} (h : ',' ∉ x) :
    pySplitComma (x ++ ',' :: t) = x :: pySplitComma t := by
  induction x with
  | nil => simp [pySplitComma]
  | cons c cs ih =>
    have hc : c ≠ ',' := fun he => h (he ▸ List.mem_cons_self ..)
    have hcs : ',' ∉ cs := fun hm => h (List.mem_cons_of_mem _ hm)
    simp [pySplitComma, hc, ih hcs]

theorem pySplit_pyJoin : ∀ {names : List PyStr}, names ≠ [] →
    (∀ n ∈ names, ',' ∉ n) → pySplitComma (pyJoinComma names) = names := by
  intro names
  induction names with
  | nil => intro hne; cases hne rfl
  | cons x xs ih =>
    intro _ hc
    cases xs with
    | nil =>
      show pySplitComma (pyJoinComma [x]) = [x]
      rw [show pyJoinComma [x] = x from rfl]
      exact pySplitComma_no_comma (hc x (List.mem_cons_self ..))
    | cons y ys =>
      rw [show pyJoinComma (x :: y :: ys) = x ++ ',' :: pyJoinComma (y :: ys) from rfl]
      rw [pySplitComma_append (hc x (List.mem_cons_self ..))]
      rw [ih (by simp) (fun n hn => hc n (List.mem_cons_of_mem _ hn))]

theorem filter_eq_self_of_no_space {s : PyStr} (h : ' ' ∉ s) :
    s.filter (fun c => c != ' ') = s := by
  apply List.filter_eq_self.mpr
  intro c hc
  have : c ≠ ' ' := fun he => h (he ▸ hc)
  simp [this]

theorem mem_pyJoinComma {c : Char} : ∀ {names : List PyStr}, c ∈ pyJoinComma names →
    c = ',' ∨ ∃ n ∈ names, c ∈ n := by
  intro names
  induction names with
  | nil => intro h; cases h
  | cons x xs ih =>
    cases xs with
    | nil =>
      intro h
      exact Or.inr ⟨x, List.mem_cons_self .., h⟩
    | cons y ys =>
      intro h
      rw [show pyJoinComma (x :: y :: ys) = x ++ ',' :: pyJoinComma (y :: ys) from rfl] at h
      rcases List.mem_append.mp h with h | h
      · exact Or.inr ⟨x, List.mem_cons_self .., h⟩
      · rcases List.mem_cons.mp h with h | h
        · exact Or.inl h
        · rcases ih h with h | ⟨n, hn, hcn⟩
          · exact Or.inl h
          · exact Or.inr ⟨n, List.mem_cons_of_mem _ hn, hcn⟩

theorem join_no_space {names : List PyStr} (hs : ∀ n ∈ names, ' ' ∉ n) :
    ' ' ∉ pyJoinComma names := by
  intro h
  rcases mem_pyJoinComma h with h | ⟨n, hn, hcn⟩
  · exact absurd h (by decide)
  · exact hs n hn hcn

theorem splitTags_join {names : List PyStr} (hne : names ≠ [])
    (hc : ∀ n ∈ names, ',' ∉ n) (hs : ∀ n ∈ names, ' ' ∉ n) :
    splitTags (pyJoinComma names) = names := by
  unfold splitTags
  rw [filter_eq_self_of_no_space (join_no_space hs)]
  exact pySplit_pyJoin hne hc

theorem resolveTags_all_found (gs : List Tag) (hid : (gs.map Tag.id).Nodup)
    (hname : (gs.map Tag.name).Nodup) :
    ∀ (ids : List Nat) (nid : Nat), (∀ i ∈ ids, ∃ g ∈ gs, g.id = i) →
    resolveTags gs nid (ids.filterMap (fun i => lookupTagName gs i)) = (ids, []) := by
  intro ids
  induction ids with
  | nil => intro nid _; rfl
  | cons i rest ih =>
    intro nid h
    obtain ⟨g, hg, hgi⟩ := h i (List.mem_cons_self ..)
    subst hgi
    have hfind : gs.find? (fun y => y.id == g.id) = some g := find_by_key Tag.id hg hid
    have hlook : lookupTagName gs g.id = some g.name := by
      unfold lookupTagName
      rw [hfind]
      rfl
    have hrec := ih nid (fun j hj => h j (List.mem_cons_of_mem _ hj))
    simp only [List.filterMap_cons, hlook]
    simp only [resolveTags, find_by_key Tag.name hg hname, hrec]

theorem resolveTags_general (gs : List Tag) (hid : (gs.map Tag.id).Nodup) :
    ∀ (labels : List PyStr) (nid : Nat), (∀ g ∈ gs, g.id < nid) →
    ((resolveTags gs nid labels).1.map
        (fun i => lookupTagName (gs ++ (resolveTags gs nid labels).2) i)
      = labels.map some) ∧
    ((resolveTags gs nid labels).2.map Tag.name).Sublist labels ∧
    (∀ i ∈ (resolveTags gs nid labels).1, (∃ g ∈ gs, g.id = i) ∨ nid ≤ i) := by
  intro labels
  induction labels with
  | nil => intro nid _; exact ⟨rfl, List.Sublist.refl _, by intro i hi; cases hi⟩
  | cons l ls ih =>
    intro nid hb
    cases hf : gs.find? (fun g => g.name == l) with
    | some g =>
      have hrec := ih nid hb
      simp only [resolveTags, hf]
      have hmem : g ∈ gs := List.mem_of_find?_eq_some hf
      have hgname : g.name = l := by
        have := List.find?_some hf
        simpa using this
      refine ⟨?_, ?_, ?_⟩
      · simp only [List.map_cons]
        rw [List.cons_eq_cons]
        refine ⟨?_, hrec.1⟩
        unfold lookupTagName
        rw [List.find?_append, find_by_key Tag.id hmem hid]
        simp [hgname]
      · exact List.Sublist.cons l hrec.2.1
      · intro i hi
        rcases List.mem_cons.mp hi with rfl | hi
        · exact Or.inl ⟨g, hmem, rfl⟩
        · exact hrec.2.2 i hi
    | none =>
      have hb1 : ∀ g ∈ gs, g.id < nid + 1 := fun g hg => Nat.lt_succ_of_lt (hb g hg)
      have hrec := ih (nid + 1) hb1
      simp only [resolveTags, hf]
      have hgsnone : gs.find? (fun y => y.id == nid) = none := by
        apply List.find?_eq_none.mpr
        intro x hx
        have := hb x hx
        simp only [beq_iff_eq]
        omega
      refine ⟨?_, ?_, ?_⟩
      · simp only [List.map_cons]
        rw [List.cons_eq_cons]
        constructor
        · unfold lookupTagName
          rw [List.find?_append, hgsnone]
          simp [List.find?_cons]
        · have hcongr : (resolveTags gs (nid + 1) ls).1.map
              (fun i => lookupTagName (gs ++ Tag.mk nid l :: (resolveTags gs (nid + 1) ls).2) i) =
              (resolveTags gs (nid + 1) ls).1.map
              (fun i => lookupTagName (gs ++ (resolveTags gs (nid + 1) ls).2) i) := by
            apply List.map_congr_left
            intro i hi
            have hne : nid ≠ i := by
              rcases hrec.2.2 i hi with ⟨g, hg, hgi⟩ | hle
              · have := hb g hg
                omega
              · omega
            unfold lookupTagName
            rw [find?_append_middle]
            simp only [beq_iff_eq]
            exact decide_eq_false hne
          rw [hcongr]
          exact hrec.1
      · exact List.Sublist.cons₂ l hrec.2.1
      · intro i hi
        rcases List.mem_cons.mp hi with rfl | hi
        · exact Or.inr (Nat.le_refl _)
        · rcases hrec.2.2 i hi with h | h
          · exact Or.inl h
          · exact Or.inr (Nat.le_of_succ_le h)

theorem sampleUpsert_shape (db : Db) (fd : FileData) (res : Option Nat × Db)
    (hres : sampleUpsert db fd = res) :
    ∃ sid, res.1 = some sid ∧ res.2.tags = db.tags ∧ res.2.tasks = db.tasks ∧
      res.2.nextTagId = db.nextTagId ∧ res.2.nextTaskId = db.nextTaskId := by
  cases hres
  unfold sampleUpsert
  by_cases hany : db.samples.any (fun s => sameHashKey s fd) = true
  · rw [if_pos hany]
    obtain ⟨s, hs, hks⟩ := List.any_eq_true.mp hany
    have hmd5 : (s.md5 == fd.md5) = true := by
      unfold sameHashKey at hks
      exact (Bool.and_eq_true ..).mp ((Bool.and_eq_true ..).mp
        ((Bool.and_eq_true ..).mp ((Bool.and_eq_true ..).mp hks).1).1).1 |>.1
    cases hfind : db.samples.find? (fun s2 => s2.md5 == fd.md5) with
    | none =>
      exact absurd (List.find?_eq_none.mp hfind s hs) (by simp [hmd5])
    | some s2 =>
      exact ⟨s2.id, rfl, rfl, rfl, rfl, rfl⟩
  · rw [if_neg hany]
    exact ⟨db.nextSampleId, rfl, rfl, rfl, rfl, rfl⟩

theorem finishAdd_spec (db : Db) (target category : String) (sample_id : Option Nat)
    (timeout : Int) (package options : String) (priority : Int)
    (custom platform : String) (tags : PyStr) (memory enforce_timeout : Bool)
    (clock : Option Nat) (now : Nat) (res : Option Nat × Db)
    (hres : finishAdd db target category sample_id timeout package options priority
      custom platform tags memory enforce_timeout clock now = res) :
    res.2.samples = db.samples ∧ res.2.nextSampleId = db.nextSampleId ∧
    (∀ t ∈ db.tasks, t ∈ res.2.tasks) ∧
    (∀ i, res.1 = some i → ∃ t ∈ res.2.tasks, t.id = i ∧ t.sample_id = sample_id ∧
      t.status = TASK_PENDING ∧ t.target = target ∧ t.category = category) := by
  cases hres
  simp only [finishAdd]
  split <;> split
  all_goals
    first
    | exact ⟨rfl, rfl, fun t ht => ht, fun i hi => by cases hi⟩
    | (refine ⟨rfl, rfl, fun t ht => List.mem_append_left _ ht, ?_⟩
       intro i hi
       simp only [Option.some.injEq] at hi
       subst hi
       exact ⟨_, List.mem_append_right _ (List.mem_cons_self ..), rfl, rfl, rfl, rfl, rfl⟩)

theorem applyStatus_status (st : String) (now : Nat) (t : Task) :
    (applyStatus st now t).status = st := by
  simp only [applyStatus]
  split
  · rfl
  · split <;> rfl

theorem set_status_missing (db : Db) (tid : Nat) (st : String) (now : Nat)
    (h : db.tasks.find? (fun t => t.id == tid) = none) :
    set_status db tid st now = SetStatusResult.attrError := by
  unfold set_status
  rw [h]

theorem set_status_found_ok (db : Db) (tid : Nat) (st : String) (now : Nat) (t : Task)
    (hf : db.tasks.find? (fun t2 => t2.id == tid) = some t)
    (henum : st ∈ task_status_enum) :
    ∃ db2, set_status db tid st now = SetStatusResult.ok db2 ∧
      applyStatus st now t ∈ db2.tasks := by
  unfold set_status
  rw [hf, if_pos (List.elem_iff.mpr henum)]
  refine ⟨_, rfl, ?_⟩
  have hmem : t ∈ db.tasks := List.mem_of_find?_eq_some hf
  have hpt0 := List.find?_some hf
  have hpt : (t.id == tid) = true := hpt0
  have hmap := List.mem_map_of_mem
    (fun t2 => if t2.id == tid then applyStatus st now t2 else t2) hmem
  simpa [hpt] using hmap

theorem set_status_found_rollback (db : Db) (tid : Nat) (st : String) (now : Nat) (t : Task)
    (hf : db.tasks.find? (fun t2 => t2.id == tid) = some t)
    (henum : st ∉ task_status_enum) :
    set_status db tid st now = SetStatusResult.ok db := by
  unfold set_status
  rw [hf, if_neg]
  simpa using henum

/-! Claim theorems. -/

/-- C1: the claim asserts that with concurrent workers calling Claim
(Database.fetch with lock=True) each pending task is returned by
exactly one call, because select and the transition to running are one
atomic operation.  In the code they are two independent transactions
(fetchSelect, then fetchLock through set_status), and under the
interleaving select, select, mark, mark both fetch calls return the
single pending task of c1db: the store starts with exactly one pending
task (id 1) and both workers obtain id 1. -/
theorem c1_fetch_double_claim :
    (c1db.tasks.filter (fun t => t.status == TASK_PENDING)).length = 1 ∧
    c1schedule = (some 1, some 1) := by
  exact ⟨rfl, rfl⟩

/-- C4 counterexample: with task 1 currently pending, set_status to
reported succeeds and stores the status (the code has no transition
validation), contradicting the claim that it fails with
InvalidTransition. -/
theorem c4_pending_to_reported_succeeds :
    set_status c4db 1 TASK_REPORTED 5 = SetStatusResult.ok c4db2 ∧
    (∃ t ∈ c4db2.tasks, t.id = 1 ∧ t.status = TASK_REPORTED) := by
  exact ⟨rfl, by decide⟩

/-- C4 amended: set_status validates nothing against the status state
machine.  For an existing task any status inside the schema Enum is
stored unconditionally (so pending to reported succeeds like completed
to reported); a status outside the Enum fails at commit and rolls back,
leaving the store unchanged; a nonexistent task id raises an uncaught
AttributeError rather than a typed NotFound. -/
theorem c4_set_status_amended (db : Db) (tid : Nat) (st : String) (now : Nat) :
    (db.tasks.find? (fun t => t.id == tid) = none →
      set_status db tid st now = SetStatusResult.attrError) ∧
    (∀ t, db.tasks.find? (fun t2 => t2.id == tid) = some t → st ∈ task_status_enum →
      ∃ db2, set_status db tid st now = SetStatusResult.ok db2 ∧
        applyStatus st now t ∈ db2.tasks ∧ (applyStatus st now t).status = st) ∧
    (∀ t, db.tasks.find? (fun t2 => t2.id == tid) = some t → st ∉ task_status_enum →
      set_status db tid st now = SetStatusResult.ok db) := by
  refine ⟨?_, ?_, ?_⟩
  · intro h
    exact set_status_missing db tid st now h
  · intro t hf henum
    obtain ⟨db2, h1, h2⟩ := set_status_found_ok db tid st now t hf henum
    exact ⟨db2, h1, h2, applyStatus_status st now t⟩
  · intro t hf henum
    exact set_status_found_rollback db tid st now t hf henum

/-- C4 witness: instantiating the amended statement on c4db shows the
pending task 1 accepting reported. -/
theorem c4_set_status_amended_witness :
    ∃ db2, set_status c4db 1 TASK_REPORTED 5 = SetStatusResult.ok db2 ∧
      applyStatus TASK_REPORTED 5 { baseTask with id := 1 } ∈ db2.tasks ∧
      (applyStatus TASK_REPORTED 5 { baseTask with id := 1 }).status = TASK_REPORTED :=
  (c4_set_status_amended c4db 1 TASK_REPORTED 5).2.1
    { baseTask with id := 1 } (by decide) (by decide)

/-- C6 counterexample: on a running task, set_status to failed_analysis
does not stamp completed_on (the status is not even in the schema Enum,
so the commit rolls back and the task is unchanged), and set_status to
running overwrites an already-set started_on, both contradicting the
claim. -/
theorem c6_failed_analysis_no_completed_on :
    set_status c6db 1 TASK_FAILED_ANALYSIS 99 = SetStatusResult.ok c6db ∧
    (∃ t ∈ c6db.tasks, t.id = 1 ∧ t.completed_on = none) ∧
    set_status c6db 1 TASK_RUNNING 99 = SetStatusResult.ok c6db2 ∧
    (∃ t ∈ c6db2.tasks, t.id = 1 ∧ t.started_on = some 99) := by
  exact ⟨rfl, by decide, rfl, by decide⟩

/-- C6 amended: a valid set_status to running stamps started_on with the
current time unconditionally (overwriting a previous value) and a valid
set_status to completed stamps completed_on; set_status to
failed_analysis or failed_processing stamps nothing: those statuses are
outside the schema Enum, the commit fails and rolls back, and the store
is returned unchanged. -/
theorem c6_set_status_timestamps (db : Db) (tid : Nat) (now : Nat) (t : Task)
    (hf : db.tasks.find? (fun t2 => t2.id == tid) = some t) :
    (∃ db2, set_status db tid TASK_RUNNING now = SetStatusResult.ok db2 ∧
      applyStatus TASK_RUNNING now t ∈ db2.tasks ∧
      (applyStatus TASK_RUNNING now t).started_on = some now ∧
      (applyStatus TASK_RUNNING now t).status = TASK_RUNNING) ∧
    (∃ db2, set_status db tid TASK_COMPLETED now = SetStatusResult.ok db2 ∧
      applyStatus TASK_COMPLETED now t ∈ db2.tasks ∧
      (applyStatus TASK_COMPLETED now t).completed_on = some now ∧
      (applyStatus TASK_COMPLETED now t).started_on = t.started_on) ∧
    set_status db tid TASK_FAILED_ANALYSIS now = SetStatusResult.ok db ∧
    set_status db tid TASK_FAILED_PROCESSING now = SetStatusResult.ok db := by
  refine ⟨?_, ?_, ?_, ?_⟩
  · obtain ⟨db2, h1, h2⟩ := set_status_found_ok db tid TASK_RUNNING now t hf (by decide)
    exact ⟨db2, h1, h2, rfl, applyStatus_status ..⟩
  · obtain ⟨db2, h1, h2⟩ := set_status_found_ok db tid TASK_COMPLETED now t hf (by decide)
    exact ⟨db2, h1, h2, rfl, rfl⟩
  · exact set_status_found_rollback db tid TASK_FAILED_ANALYSIS now t hf (by decide)
  · exact set_status_found_rollback db tid TASK_FAILED_PROCESSING now t hf (by decide)

/-- C7 counterexample: Database.add stores timeout -3 and priority -1
unchanged; the claim says any timeout below or equal to 0 is stored as 0
and any priority below or equal to 0 as 1. -/
theorem c7_negative_not_normalized :
    ∃ t ∈ (add emptyDb (SubmitObj.url ("u")) (-3) "" "" (-1) "" "" []
      false false none 5).2.tasks,
      t.timeout = -3 ∧ t.timeout ≠ 0 ∧ t.priority = -1 ∧ t.priority ≠ 1 := by
  decide

/-- C7 amended: the normalisation in Database.add is the Python falsy
test if not timeout / if not priority: only the integer 0 is rewritten
(timeout 0 stays 0, priority 0 becomes 1); every other value, negative
ones included, is stored unchanged. -/
theorem c7_add_normalization (db : Db) (u : String) (tm : Int) (pk op cu pl : String)
    (pr : Int) (me ef : Bool) (ck : Option Nat) (now : Nat) :
    ∃ i, (add db (SubmitObj.url u) tm pk op pr cu pl [] me ef ck now).1 = some i ∧
      ∃ t ∈ (add db (SubmitObj.url u) tm pk op pr cu pl [] me ef ck now).2.tasks,
        t.id = i ∧ t.timeout = tm ∧ t.priority = (if pr = 0 then 1 else pr) := by
  simp only [add, add_url, finishAdd, List.isEmpty_nil, if_true, List.map_nil,
    List.nodup_nil]
  refine ⟨db.nextTaskId, rfl, _, List.mem_append_right _ (List.mem_cons_self ..),
    rfl, ?_, ?_⟩
  · by_cases h : tm = 0 <;> simp [h]
  · by_cases h : pr = 0 <;> simp [h]

/-- C8 counterexample: the tag string foo bar,baz resolves to labels
foobar and baz: Database.add removes every space with
replace(" ", ""), so interior whitespace is not preserved as the claim
states. -/
theorem c8_interior_space_removed :
    ((add emptyDb (SubmitObj.url ("u")) 0 "" "" 1 "" ""
        (("foo bar,baz").toList) false false none 0).2.tags.map Tag.name
      = [("foobar").toList, ("baz").toList]) ∧
    splitTags (("foo bar,baz").toList) = [("foobar").toList, ("baz").toList] ∧
    splitTags (("foo bar,baz").toList) ≠ [("foo bar").toList, ("baz").toList] := by
  decide

theorem applyStatus_id (st : String) (now : Nat) (t : Task) :
    (applyStatus st now t).id = t.id := by
  simp only [applyStatus]
  split
  · rfl
  · split <;> rfl

theorem applyStatus_running_started (now : Nat) (t : Task) :
    (applyStatus TASK_RUNNING now t).started_on = some now := rfl

/-- C3: a sequential Claim (fetch with lock) returns None on an empty
pending set, and otherwise returns the pending task with the highest
priority (earliest added_on among equals), marked running with
started_on stamped; on the concrete store with priorities submitted as
1, 5, 3 the three sequential claims return priorities 5, 3, 1 and a
fourth returns None. -/
theorem c3_fetch_claim (db : Db) (now : Nat) (hwf : db.WF) :
    fetchSpec db now ∧ c3chain := by
  constructor
  · constructor
    · intro hempty
      unfold fetch fetchSelect
      rw [hempty]
      rfl
    · intro hex
      obtain ⟨p, hp, hps⟩ := hex
      have hpf : p ∈ db.tasks.filter (fun t => t.status == TASK_PENDING) :=
        List.mem_filter.mpr ⟨hp, by simp [hps]⟩
      cases hpb : pickBest (db.tasks.filter (fun t => t.status == TASK_PENDING)) with
      | none =>
        rw [pickBest_eq_none hpb] at hpf
        cases hpf
      | some t0 =>
        have ht0f : t0 ∈ db.tasks.filter (fun t => t.status == TASK_PENDING) :=
          pickBest_mem hpb
        have ht0mem : t0 ∈ db.tasks := (List.mem_filter.mp ht0f).1
        have ht0p : t0.status = TASK_PENDING := by
          have := (List.mem_filter.mp ht0f).2
          simpa using this
        have hfind0 : db.tasks.find? (fun y => y.id == t0.id) = some t0 :=
          find_by_key Task.id ht0mem hwf.1
        have hss : set_status db t0.id TASK_RUNNING now = SetStatusResult.ok
            { db with
                tasks := db.tasks.map
                  (fun t => if t.id == t0.id then applyStatus TASK_RUNNING now t else t) } := by
          unfold set_status
          rw [hfind0]
          rfl
        have hmapfind : (db.tasks.map
              (fun t => if t.id == t0.id then applyStatus TASK_RUNNING now t else t)).find?
              (fun t => t.id == t0.id)
            = some (applyStatus TASK_RUNNING now t0) := by
          rw [find?_map_pred]
          · rw [hfind0]
            simp
          · intro x
            by_cases hx : (x.id == t0.id) = true <;> simp [hx, applyStatus_id]
        refine ⟨applyStatus TASK_RUNNING now t0,
          { db with
              tasks := db.tasks.map
                (fun t => if t.id == t0.id then applyStatus TASK_RUNNING now t else t) },
          ?_, applyStatus_status .., applyStatus_running_started .., ?_, t0, ht0mem,
          ht0p, rfl, ?_⟩
        · unfold fetch fetchSelect fetchLock
          rw [hpb]
          simp only [if_true, hss, hmapfind]
        · have hmap := List.mem_map_of_mem
            (fun t => if t.id == t0.id then applyStatus TASK_RUNNING now t else t) ht0mem
          simpa using hmap
        · intro u hu hus
          have huf : u ∈ db.tasks.filter (fun t => t.status == TASK_PENDING) :=
            List.mem_filter.mpr ⟨hu, by simp [hus]⟩
          have hnb := pickBest_best hpb u huf
          unfold betterTask at hnb
          constructor
          · omega
          · intro he
            omega
  · unfold c3chain
    decide

/-- C3 witness: the general statement instantiated on the concrete
priority store. -/
theorem c3_fetch_claim_witness : c3db.WF ∧ (fetchSpec c3db 10 ∧ c3chain) :=
  ⟨by decide, c3_fetch_claim c3db 10 (by decide)⟩

/-- C2: submitting byte-identical content (same full digest set) twice
leaves exactly one Sample row carrying that digest set, because the
second insert hits the hash_index uniqueness violation, is rolled back
and replaced by a re-read of the existing row by md5; both submissions'
tasks reference the same sample id. -/
theorem c2_sample_dedup (db : Db) (fd : FileData) (p1 p2 : String)
    (tm1 tm2 : Int) (pk1 pk2 op1 op2 : String) (pr1 pr2 : Int)
    (cu1 cu2 pl1 pl2 : String) (tg1 tg2 : PyStr) (me1 me2 ef1 ef2 : Bool)
    (ck1 ck2 : Option Nat) (now1 now2 : Nat) (r1 r2 : Option Nat × Db)
    (hmd5 : ∀ s ∈ db.samples, s.md5 ≠ fd.md5)
    (h1 : add db (SubmitObj.file p1 fd) tm1 pk1 op1 pr1 cu1 pl1 tg1 me1 ef1 ck1 now1 = r1)
    (h2 : add r1.2 (SubmitObj.file p2 fd) tm2 pk2 op2 pr2 cu2 pl2 tg2 me2 ef2 ck2 now2 = r2) :
    (r2.2.samples.filter (fun s => sameHashKey s fd)).length = 1 ∧
    (∀ i1, r1.1 = some i1 → ∃ t ∈ r2.2.tasks, t.id = i1 ∧
      t.sample_id = some db.nextSampleId) ∧
    (∀ i2, r2.1 = some i2 → ∃ t ∈ r2.2.tasks, t.id = i2 ∧
      t.sample_id = some db.nextSampleId) := by
  subst h1
  subst h2
  have hkeyfalse : ∀ s ∈ db.samples, sameHashKey s fd = false := by
    intro s hs
    unfold sameHashKey
    simp [hmd5 s hs]
  have hany1 : db.samples.any (fun s => sameHashKey s fd) = false := by
    rw [List.any_eq_false]
    intro s hs
    simp [hkeyfalse s hs]
  set s0 : Sample := ⟨db.nextSampleId, fd.file_size, fd.file_type, fd.md5, fd.crc32,
    fd.sha1, fd.sha256, fd.sha512, fd.ssdeep⟩ with hs0def
  set dbS : Db :=
    { db with
        samples := db.samples ++ [s0],
        nextSampleId := db.nextSampleId + 1 } with hdbSdef
  have hs0key : sameHashKey s0 fd = true := by
    rw [hs0def]
    unfold sameHashKey
    simp
  have hsu1 : sampleUpsert db fd = (some db.nextSampleId, dbS) := by
    unfold sampleUpsert
    rw [if_neg (by simp [hany1])]
  obtain ⟨R1, hg1⟩ : ∃ r, add db (SubmitObj.file p1 fd) tm1 pk1 op1 pr1 cu1 pl1 tg1
      me1 ef1 ck1 now1 = r := ⟨_, rfl⟩
  rw [hg1]
  obtain ⟨hA1samples, hA1next, hA1tasks, hA1some⟩ :=
    finishAdd_spec dbS p1 ("file") (some db.nextSampleId) (if tm1 == 0 then 0 else tm1)
      pk1 op1 (if pr1 == 0 then 1 else pr1) cu1 pl1 tg1 me1 ef1 ck1 now1 R1
      (by rw [← hg1]; simp only [add, hsu1])
  have hdbSsamples : dbS.samples = db.samples ++ [s0] := rfl
  have hs0mem : s0 ∈ R1.2.samples := by
    rw [hA1samples, hdbSsamples]
    exact List.mem_append_right _ (List.mem_cons_self ..)
  have hany2 : R1.2.samples.any (fun s => sameHashKey s fd) = true :=
    List.any_eq_true.mpr ⟨s0, hs0mem, hs0key⟩
  have hs0md5 : (s0.md5 == fd.md5) = true := by
    rw [hs0def]
    simp
  have hfind2 : R1.2.samples.find? (fun s => s.md5 == fd.md5) = some s0 := by
    rw [hA1samples, hdbSsamples, List.find?_append]
    have hnone : db.samples.find? (fun s => s.md5 == fd.md5) = none :=
      List.find?_eq_none.mpr (fun s hs => by simp [hmd5 s hs])
    rw [hnone]
    simp [List.find?_cons, hs0md5]
  have hsu2 : sampleUpsert R1.2 fd = (some db.nextSampleId, R1.2) := by
    unfold sampleUpsert
    rw [if_pos hany2]
    simp only [hfind2]
  obtain ⟨R2, hg2⟩ : ∃ r, add R1.2 (SubmitObj.file p2 fd) tm2 pk2 op2 pr2 cu2 pl2 tg2
      me2 ef2 ck2 now2 = r := ⟨_, rfl⟩
  rw [hg2]
  obtain ⟨hA2samples, hA2next, hA2tasks, hA2some⟩ :=
    finishAdd_spec R1.2 p2 ("file") (some db.nextSampleId) (if tm2 == 0 then 0 else tm2)
      pk2 op2 (if pr2 == 0 then 1 else pr2) cu2 pl2 tg2 me2 ef2 ck2 now2 R2
      (by rw [← hg2]; simp only [add, hsu2])
  refine ⟨?_, ?_, ?_⟩
  · rw [hA2samples, hA1samples, hdbSsamples, List.filter_append]
    have hfe : db.samples.filter (fun s => sameHashKey s fd) = [] :=
      List.filter_eq_nil_iff.mpr (fun s hs => by simp [hkeyfalse s hs])
    rw [hfe]
    simp [hs0key]
  · intro i1 hi1
    obtain ⟨t, ht, hti, hts, _⟩ := hA1some i1 hi1
    exact ⟨t, hA2tasks t ht, hti, hts⟩
  · intro i2 hi2
    obtain ⟨t, ht, hti, hts, _⟩ := hA2some i2 hi2
    exact ⟨t, ht, hti, hts⟩

/-- C2 witness: the dedup statement instantiated on two submissions of
c2fd over the empty store. -/
theorem c2_sample_dedup_witness :
    (∀ s ∈ emptyDb.samples, s.md5 ≠ c2fd.md5) ∧
    ((c2r2.2.samples.filter (fun s => sameHashKey s c2fd)).length = 1 ∧
     (∀ i1, c2r1.1 = some i1 → ∃ t ∈ c2r2.2.tasks, t.id = i1 ∧
       t.sample_id = some emptyDb.nextSampleId) ∧
     (∀ i2, c2r2.1 = some i2 → ∃ t ∈ c2r2.2.tasks, t.id = i2 ∧
       t.sample_id = some emptyDb.nextSampleId)) :=
  ⟨by decide, c2_sample_dedup emptyDb c2fd ("a.exe") ("b.exe") 0 0 ("") ("") ("") ("")
    1 1 ("") ("") ("") ("") [] [] false false false false none none 1 2 c2r1 c2r2
    (by decide) rfl rfl⟩

/-- C9: storing the same content (same sha256 digest) twice returns the
same blob id both times and leaves exactly one stored blob; the second
call does not rewrite anything.  When two writers race past the initial
check, the close of the loser hits the unique index (FileExists) and
re-reads the winner's id, so both still return the same id over one
stored copy. -/
theorem c9_store_file_dedup (g : Gfs) (h fn1 fn2 : String) (c : List Nat)
    (hwf : Gfs.WF g) :
    (store_file g h fn1 c).1 = (store_file (store_file g h fn1 c).2 h fn2 c).1 ∧
    (store_file (store_file g h fn1 c).2 h fn2 c).2 = (store_file g h fn1 c).2 ∧
    (((store_file (store_file g h fn1 c).2 h fn2 c).2.files.filter
      (fun b => b.sha256 == h)).length = 1) ∧
    (storeFileCheck g h = none →
      (storeFileClose g h fn1 c).1
          = (storeFileClose (storeFileClose g h fn1 c).2 h fn2 c).1 ∧
        (((storeFileClose (storeFileClose g h fn1 c).2 h fn2 c).2.files.filter
          (fun b => b.sha256 == h)).length = 1)) := by
  cases hfo : find_one g h with
  | some e =>
    have hsf1 : store_file g h fn1 c = (e.id, g) := by
      unfold store_file storeFileCheck
      rw [hfo]
      rfl
    have he : e.sha256 = h := by
      have := List.find?_some hfo
      simpa using this
    have hmem : e ∈ g.files := List.mem_of_find?_eq_some hfo
    have hfl : g.files.filter (fun b => b.sha256 == h) = [e] := by
      rw [← he]
      exact filter_by_key Blob.sha256 hmem hwf.1
    have hsf2 : store_file g h fn2 c = (e.id, g) := by
      unfold store_file storeFileCheck
      rw [hfo]
      rfl
    rw [hsf1]
    refine ⟨?_, ?_, ?_, ?_⟩
    · simp [hsf2]
    · simp [hsf2]
    · simp [hsf2, hfl]
    · intro hc
      unfold storeFileCheck at hc
      rw [hfo] at hc
      cases hc
  | none =>
    have hnone : ∀ b ∈ g.files, (b.sha256 == h) = false := by
      intro b hb
      have := List.find?_eq_none.mp hfo b hb
      simpa using this
    set b0 : Blob := ⟨g.nextId, h, fn1, c⟩ with hb0
    set g1 : Gfs := ⟨g.files ++ [b0], g.nextId + 1⟩ with hg1
    have hcl1 : storeFileClose g h fn1 c = (g.nextId, g1) := by
      unfold storeFileClose
      rw [hfo]
    have hfo2 : find_one g1 h = some b0 := by
      unfold find_one
      rw [hg1]
      rw [List.find?_append, List.find?_eq_none.mpr (fun b hb => by simp [hnone b hb])]
      simp [List.find?_cons, hb0]
    have hcount : (g1.files.filter (fun b => b.sha256 == h)).length = 1 := by
      rw [hg1]
      show ((g.files ++ [b0]).filter (fun b => b.sha256 == h)).length = 1
      rw [List.filter_append, List.filter_eq_nil_iff.mpr (fun b hb => by simp [hnone b hb])]
      simp [hb0]
    have hsf1 : store_file g h fn1 c = (g.nextId, g1) := by
      unfold store_file storeFileCheck
      rw [hfo]
      exact hcl1
    have hsf2 : store_file g1 h fn2 c = (g.nextId, g1) := by
      unfold store_file storeFileCheck
      rw [hfo2]
      rfl
    have hcl2 : storeFileClose g1 h fn2 c = (g.nextId, g1) := by
      unfold storeFileClose
      rw [hfo2]
    rw [hsf1]
    have hsf2p : store_file (g.nextId, g1).2 h fn2 c = (g.nextId, g1) := hsf2
    rw [hsf2p]
    refine ⟨rfl, rfl, hcount, ?_⟩
    intro _
    rw [hcl1]
    have hcl2p : storeFileClose (g.nextId, g1).2 h fn2 c = (g.nextId, g1) := hcl2
    rw [hcl2p]
    exact ⟨rfl, hcount⟩

/-- C9 witness: the statement instantiated on the empty blob store. -/
theorem c9_store_file_dedup_witness :
    Gfs.WF c9gfs ∧
    ((store_file c9gfs ("d") ("f1") [1, 2]).1
        = (store_file (store_file c9gfs ("d") ("f1") [1, 2]).2 ("d") ("f2") [1, 2]).1 ∧
      (store_file (store_file c9gfs ("d") ("f1") [1, 2]).2 ("d") ("f2") [1, 2]).2
        = (store_file c9gfs ("d") ("f1") [1, 2]).2 ∧
      (((store_file (store_file c9gfs ("d") ("f1") [1, 2]).2 ("d") ("f2") [1, 2]).2.files.filter
        (fun b => b.sha256 == ("d"))).length = 1) ∧
      (storeFileCheck c9gfs ("d") = none →
        (storeFileClose c9gfs ("d") ("f1") [1, 2]).1
            = (storeFileClose (storeFileClose c9gfs ("d") ("f1") [1, 2]).2 ("d") ("f2")
              [1, 2]).1 ∧
          (((storeFileClose (storeFileClose c9gfs ("d") ("f1") [1, 2]).2 ("d") ("f2")
            [1, 2]).2.files.filter (fun b => b.sha256 == ("d"))).length = 1))) :=
  ⟨by decide, c9_store_file_dedup c9gfs ("d") ("f1") ("f2") [1, 2] (by decide)⟩

/-- C8 amended: the labels a comma-delimited tag string resolves to are
the comma-separated components of the string after every space
character has been removed (so interior whitespace is deleted, not
preserved); the registry does not normalise case, so the two labels of
the string A,a create two distinct tag rows. -/
theorem c8_tags_amended (db : Db) (u : String) (tm : Int) (pk op cu pl : String)
    (pr : Int) (s : PyStr) (me ef : Bool) (ck : Option Nat) (now : Nat)
    (hwf : db.WF) (hne : s.isEmpty = false) (hnd : (splitTags s).Nodup) :
    (∃ i db2, add db (SubmitObj.url u) tm pk op pr cu pl s me ef ck now
        = (some i, db2) ∧
      ∃ t ∈ db2.tasks, t.id = i ∧
        t.tags.map (fun j => lookupTagName db2.tags j) = (splitTags s).map some) ∧
    ((add emptyDb (SubmitObj.url ("x")) 0 ("") ("") 1 ("") ("") (("A,a").toList)
      false false none 0).2.tags = [⟨0, ("A").toList⟩, ⟨1, ("a").toList⟩]) := by
  have hr := resolveTags_general db.tags hwf.2.2.1 (splitTags s) db.nextTagId
    hwf.2.2.2.2.1
  have hnodupnew :
      (((resolveTags db.tags db.nextTagId (splitTags s)).2).map Tag.name).Nodup :=
    hnd.sublist hr.2.1
  constructor
  · have hadd : add db (SubmitObj.url u) tm pk op pr cu pl s me ef ck now
        = (some db.nextTaskId,
          ⟨db.samples, db.tags ++ (resolveTags db.tags db.nextTagId (splitTags s)).2,
            db.tasks ++
              [⟨db.nextTaskId, u, ("url"), if tm == 0 then 0 else tm,
                if pr == 0 then 1 else pr, cu, pk, op, pl, me, ef,
                (match ck with
                  | some cv => cv
                  | none => now),
                now, none, none, TASK_PENDING, none,
                (resolveTags db.tags db.nextTagId (splitTags s)).1⟩],
            db.nextSampleId,
            db.nextTagId + (resolveTags db.tags db.nextTagId (splitTags s)).2.length,
            db.nextTaskId + 1⟩) := by
      simp only [add, finishAdd, hne, Bool.false_eq_true, if_false, hnodupnew, if_true]
    refine ⟨db.nextTaskId, _, hadd, _,
      List.mem_append_right _ (List.mem_cons_self ..), rfl, ?_⟩
    exact hr.1
  · decide

/-- C8 witness: the amended statement instantiated on the empty store
with the tag string x,y. -/
theorem c8_tags_amended_witness :
    (emptyDb.WF ∧ (("x,y").toList : PyStr).isEmpty = false ∧
      (splitTags (("x,y").toList)).Nodup) ∧
    ((∃ i db2, add emptyDb (SubmitObj.url ("u")) 0 ("") ("") 1 ("") ("")
        (("x,y").toList) false false none 0 = (some i, db2) ∧
      ∃ t ∈ db2.tasks, t.id = i ∧
        t.tags.map (fun j => lookupTagName db2.tags j)
          = (splitTags (("x,y").toList)).map some) ∧
     ((add emptyDb (SubmitObj.url ("x")) 0 ("") ("") 1 ("") ("") (("A,a").toList)
       false false none 0).2.tags = [⟨0, ("A").toList⟩, ⟨1, ("a").toList⟩])) :=
  ⟨⟨by decide, by decide, by decide⟩,
    c8_tags_amended emptyDb ("u") 0 ("") ("") ("") ("") 1 (("x,y").toList) false false
      none 0 (by decide) (by decide) (by decide)⟩

theorem finishAdd_tags_roundtrip (dbF : Db) (gs : List Tag) (ids : List Nat)
    (hgs : dbF.tags = gs)
    (hidnodup : (gs.map Tag.id).Nodup) (hnamenodup : (gs.map Tag.name).Nodup)
    (hres : ∀ i ∈ ids, ∃ g ∈ gs, g.id = i ∧ lookupTagName gs i = some g.name ∧
      g.name ≠ [] ∧ ',' ∉ g.name ∧ ' ' ∉ g.name)
    (target category : String) (sample_id : Option Nat) (tm : Int) (pk op : String)
    (pr : Int) (cu pl : String) (me ef : Bool) (ck : Nat) (now : Nat) :
    finishAdd dbF target category sample_id tm pk op pr cu pl
      (if (ids.filterMap (fun i => lookupTagName gs i)).isEmpty then ([] : PyStr)
        else pyJoinComma (ids.filterMap (fun i => lookupTagName gs i)))
      me ef (some ck) now
    = (some dbF.nextTaskId,
      { dbF with
          tasks := dbF.tasks ++
            [⟨dbF.nextTaskId, target, category, tm, pr, cu, pk, op, pl, me, ef, ck,
              now, none, none, TASK_PENDING, sample_id, ids⟩],
          nextTaskId := dbF.nextTaskId + 1 }) := by
  cases hids : ids with
  | nil =>
    simp [finishAdd]
  | cons i0 rest =>
    have hresall : ∀ i ∈ ids, ∃ g ∈ gs, g.id = i := by
      intro i hi
      obtain ⟨g, hg, hgi, _, _, _, _⟩ := hres i hi
      exact ⟨g, hg, hgi⟩
    have hnames_ne : ids.filterMap (fun i => lookupTagName gs i) ≠ [] := by
      rw [hids]
      obtain ⟨g, _, _, hlook, _, _, _⟩ := hres i0 (hids ▸ List.mem_cons_self ..)
      simp only [List.filterMap_cons, hlook]
      exact List.cons_ne_nil _ _
    have hprops : ∀ n ∈ ids.filterMap (fun i => lookupTagName gs i),
        n ≠ [] ∧ ',' ∉ n ∧ ' ' ∉ n := by
      intro n hn
      obtain ⟨j, hj, hfj⟩ := List.mem_filterMap.mp hn
      obtain ⟨g, _, _, hglook, hgne, hcn, hsn⟩ := hres j hj
      rw [hglook] at hfj
      injection hfj with hfj
      subst hfj
      exact ⟨hgne, hcn, hsn⟩
    have hjoin_ne : pyJoinComma (ids.filterMap (fun i => lookupTagName gs i)) ≠ [] := by
      cases hn : ids.filterMap (fun i => lookupTagName gs i) with
      | nil => exact absurd hn hnames_ne
      | cons n ns =>
        cases ns with
        | nil =>
          have := (hprops n (hn ▸ List.mem_cons_self ..)).1
          simpa [pyJoinComma] using this
        | cons m ms =>
          have h1 := (hprops n (hn ▸ List.mem_cons_self ..)).1
          show n ++ ',' :: pyJoinComma (m :: ms) ≠ []
          cases n with
          | nil => simp
          | cons c cs => simp
    have hsplit : splitTags (pyJoinComma (ids.filterMap (fun i => lookupTagName gs i)))
        = ids.filterMap (fun i => lookupTagName gs i) :=
      splitTags_join hnames_ne (fun n hn => (hprops n hn).2.1)
        (fun n hn => (hprops n hn).2.2)
    have hra : resolveTags gs dbF.nextTagId
        (ids.filterMap (fun i => lookupTagName gs i)) = (ids, []) :=
      resolveTags_all_found gs hidnodup hnamenodup ids dbF.nextTagId hresall
    rw [← hids]
    rw [if_neg (by simp [hnames_ne])]
    have hempty2 : (pyJoinComma (ids.filterMap (fun i => lookupTagName gs i))).isEmpty
        = false := by
      cases hn : pyJoinComma (ids.filterMap (fun i => lookupTagName gs i)) with
      | nil => exact absurd hn hjoin_ne
      | cons c cs => rfl
    simp only [finishAdd, hempty2, Bool.false_eq_true, if_false, hgs, hsplit, hra,
      List.map_nil, List.nodup_nil, if_true, List.append_nil, List.length_nil,
      Nat.add_zero]

/-- C5: rescheduling an existing task marks the original recovered and
creates a new pending task preserving target, category, timeout,
package, options, custom, platform, priority, tag set, memory flag,
enforce-timeout flag and clock, returning the new task's id; a
nonexistent id yields NotFound (None) and an unchanged store.  The tag
hypotheses state that the task's tags resolve in the store to names that
are nonempty and free of commas and spaces, which holds for every tag
the submission path can create (its labels are comma-split and
space-stripped); the priority hypothesis excludes 0, which the
submission path normalises away. -/
theorem c5_reschedule (fs : String → Option FileData) (db : Db) (task : Task)
    (fd : FileData) (now : Nat)
    (hwf : db.WF)
    (hmem : task ∈ db.tasks)
    (hcat : task.category = ("file") ∨ task.category = ("url"))
    (hfile : task.category = ("file") → task.target ≠ ("") ∧ fs task.target = some fd)
    (hpr : task.priority ≠ 0)
    (htags : ∀ i ∈ task.tags, ∃ g ∈ db.tags, g.id = i ∧ g.name ≠ [] ∧
      ',' ∉ g.name ∧ ' ' ∉ g.name) :
    (∀ tid, db.tasks.find? (fun t => t.id == tid) = none →
      reschedule fs db tid now = (none, db)) ∧
    ∃ newId db2, reschedule fs db task.id now = (some newId, db2) ∧
      { task with status := TASK_RECOVERED } ∈ db2.tasks ∧ task.id ≠ newId ∧
      ∃ nt ∈ db2.tasks, nt.id = newId ∧ nt.status = TASK_PENDING ∧
        nt.target = task.target ∧ nt.category = task.category ∧
        nt.timeout = task.timeout ∧ nt.package = task.package ∧
        nt.options = task.options ∧ nt.custom = task.custom ∧
        nt.platform = task.platform ∧ nt.priority = task.priority ∧
        nt.tags = task.tags ∧ nt.memory = task.memory ∧
        nt.enforce_timeout = task.enforce_timeout ∧ nt.clock = task.clock := by
  constructor
  · intro tid h
    unfold reschedule view_task
    rw [h]
  · have hview : view_task db task.id = some task := find_by_key Task.id hmem hwf.1
    have hlook : ∀ i ∈ task.tags, ∃ g ∈ db.tags, g.id = i ∧
        lookupTagName db.tags i = some g.name ∧ g.name ≠ [] ∧
        ',' ∉ g.name ∧ ' ' ∉ g.name := by
      intro i hi
      obtain ⟨g, hg, hgi, hgne, hcn, hsn⟩ := htags i hi
      refine ⟨g, hg, hgi, ?_, hgne, hcn, hsn⟩
      unfold lookupTagName
      rw [← hgi, find_by_key Tag.id hg hwf.2.2.1]
      rfl
    have hrec_mem : { task with status := TASK_RECOVERED }
        ∈ (markRecovered db task.id).tasks := by
      unfold markRecovered
      have hmap := List.mem_map_of_mem
        (fun t => if t.id == task.id then { t with status := TASK_RECOVERED } else t)
        hmem
      simpa using hmap
    have hne_id : task.id ≠ db.nextTaskId := Nat.ne_of_lt (hwf.2.1 task hmem)
    have htm : (if (if task.timeout == 0 then 0 else task.timeout) == 0 then 0
        else if task.timeout == 0 then 0 else task.timeout) = task.timeout := by
      by_cases h : task.timeout = 0 <;> simp [h]
    have hprr : (if (if task.priority == 0 then 1 else task.priority) == 0 then 1
        else if task.priority == 0 then 1 else task.priority) = task.priority := by
      by_cases h : task.priority = 0
      · exact absurd h hpr
      · simp [h]
    rcases hcat with hcatf | hcatu
    · obtain ⟨htarget, hfs⟩ := hfile hcatf
      obtain ⟨RS, hRS⟩ : ∃ r, sampleUpsert (markRecovered db task.id) fd = r := ⟨_, rfl⟩
      obtain ⟨sid, hs1, hstags, hstasks, hsntag, hsntask⟩ :=
        sampleUpsert_shape (markRecovered db task.id) fd RS hRS
      have hsu : sampleUpsert (markRecovered db task.id) fd = (some sid, RS.2) := by
        rw [hRS, ← hs1, Prod.mk.eta]
      have hstep : reschedule fs db task.id now
          = finishAdd RS.2 task.target
            ("file") (some sid)
            (if (if task.timeout == 0 then 0 else task.timeout) == 0 then 0
              else if task.timeout == 0 then 0 else task.timeout)
            task.package task.options
            (if (if task.priority == 0 then 1 else task.priority) == 0 then 1
              else if task.priority == 0 then 1 else task.priority)
            task.custom task.platform
            (if (task.tags.filterMap (fun i => lookupTagName db.tags i)).isEmpty
              then ([] : PyStr)
              else pyJoinComma (task.tags.filterMap (fun i => lookupTagName db.tags i)))
            task.memory task.enforce_timeout (some task.clock) now := by
        simp only [reschedule, hview, taskTagNames]
        rw [if_pos (by simp [hcatf] : (task.category == ("file")) = true)]
        unfold add_path
        rw [if_neg (by simp [htarget])]
        rw [hfs]
        simp only [add, hsu]
      have hfats := finishAdd_tags_roundtrip RS.2 db.tags task.tags
        (hstags.trans rfl) hwf.2.2.1 hwf.2.2.2.1 hlook task.target ("file") (some sid)
        (if (if task.timeout == 0 then 0 else task.timeout) == 0 then 0
          else if task.timeout == 0 then 0 else task.timeout)
        task.package task.options
        (if (if task.priority == 0 then 1 else task.priority) == 0 then 1
          else if task.priority == 0 then 1 else task.priority)
        task.custom task.platform task.memory task.enforce_timeout task.clock now
      rw [hstep, hfats]
      refine ⟨RS.2.nextTaskId, _, rfl, ?_, ?_, ?_⟩
      · apply List.mem_append_left
        rw [hstasks]
        exact hrec_mem
      · rw [hsntask]
        exact hne_id
      · refine ⟨_, List.mem_append_right _ (List.mem_cons_self ..), rfl, rfl, rfl,
          hcatf.symm, htm, rfl, rfl, rfl, rfl, hprr, rfl, rfl, rfl, rfl⟩
    · have hstep : reschedule fs db task.id now
          = finishAdd (markRecovered db task.id) task.target ("url") none
            (if (if task.timeout == 0 then 0 else task.timeout) == 0 then 0
              else if task.timeout == 0 then 0 else task.timeout)
            task.package task.options
            (if (if task.priority == 0 then 1 else task.priority) == 0 then 1
              else if task.priority == 0 then 1 else task.priority)
            task.custom task.platform
            (if (task.tags.filterMap (fun i => lookupTagName db.tags i)).isEmpty
              then ([] : PyStr)
              else pyJoinComma (task.tags.filterMap (fun i => lookupTagName db.tags i)))
            task.memory task.enforce_timeout (some task.clock) now := by
        simp only [reschedule, hview, taskTagNames]
        rw [if_neg (by rw [hcatu]; decide)]
        rw [if_pos (by simp [hcatu] : (task.category == ("url")) = true)]
        unfold add_url
        simp only [add]
      have hfats := finishAdd_tags_roundtrip (markRecovered db task.id) db.tags
        task.tags rfl hwf.2.2.1 hwf.2.2.2.1 hlook task.target ("url") none
        (if (if task.timeout == 0 then 0 else task.timeout) == 0 then 0
          else if task.timeout == 0 then 0 else task.timeout)
        task.package task.options
        (if (if task.priority == 0 then 1 else task.priority) == 0 then 1
          else if task.priority == 0 then 1 else task.priority)
        task.custom task.platform task.memory task.enforce_timeout task.clock now
      rw [hstep, hfats]
      refine ⟨(markRecovered db task.id).nextTaskId, _, rfl, ?_, ?_, ?_⟩
      · exact List.mem_append_left _ hrec_mem
      · exact hne_id
      · refine ⟨_, List.mem_append_right _ (List.mem_cons_self ..), rfl, rfl, rfl,
          hcatu.symm, htm, rfl, rfl, rfl, rfl, hprr, rfl, rfl, rfl, rfl⟩

/-- C5 witness: the reschedule statement instantiated on a completed
file task with tags a and b and priority 5. -/
theorem c5_reschedule_witness :
    (c5db.WF ∧ c5task ∈ c5db.tasks ∧
      (c5task.category = ("file") ∨ c5task.category = ("url")) ∧
      (c5task.category = ("file") →
        c5task.target ≠ ("") ∧ c5fs c5task.target = some c5fd) ∧
      c5task.priority ≠ 0 ∧
      (∀ i ∈ c5task.tags, ∃ g ∈ c5db.tags, g.id = i ∧ g.name ≠ [] ∧
        ',' ∉ g.name ∧ ' ' ∉ g.name)) ∧
    ((∀ tid, c5db.tasks.find? (fun t => t.id == tid) = none →
      reschedule c5fs c5db tid 100 = (none, c5db)) ∧
    ∃ newId db2, reschedule c5fs c5db c5task.id 100 = (some newId, db2) ∧
      { c5task with status := TASK_RECOVERED } ∈ db2.tasks ∧ c5task.id ≠ newId ∧
      ∃ nt ∈ db2.tasks, nt.id = newId ∧ nt.status = TASK_PENDING ∧
        nt.target = c5task.target ∧ nt.category = c5task.category ∧
        nt.timeout = c5task.timeout ∧ nt.package = c5task.package ∧
        nt.options = c5task.options ∧ nt.custom = c5task.custom ∧
        nt.platform = c5task.platform ∧ nt.priority = c5task.priority ∧
        nt.tags = c5task.tags ∧ nt.memory = c5task.memory ∧
        nt.enforce_timeout = c5task.enforce_timeout ∧ nt.clock = c5task.clock) :=
  ⟨⟨by decide, by decide, by decide, by decide, by decide, by decide⟩,
    c5_reschedule c5fs c5db c5task c5fd 100 (by decide) (by decide) (by decide)
      (by decide) (by decide) (by decide)⟩

theorem read_append_lt {l : List PObj} {o : PObj} {a : Nat} (ha : a < l.length) :
    (Heap.mk (l ++ [o])).read a = (Heap.mk l).read a := by
  unfold Heap.read
  exact List.getElem?_append_left ha

theorem read_write_ne {h : Heap} {i : Nat} {o : PObj} {a : Nat} (ha : i ≠ a) :
    (h.write i o).read a = h.read a := by
  unfold Heap.read Heap.write
  exact List.getElem?_set_ne ha

/-- C10: MongoDB.run never mutates the caller-supplied results document:
every object that existed on the heap before the call reads back
unchanged afterwards, and the persisted report is the freshly allocated
shallow copy (its address is the next free one), so the target rewrite
only touches the copy. -/
theorem c10_run_no_mutation (h : Heap) (results : Nat) (sv : Bool) (sid : Int)
    (r : Nat) (hfin : Heap) (hrun : mongoRun h results sv sid = some (r, hfin)) :
    r = h.objs.length ∧ ∀ a, a < h.objs.length → hfin.read a = h.read a := by
  unfold mongoRun at hrun
  cases hres : h.read results with
  | none =>
    rw [hres] at hrun
    cases hrun
  | some resObj =>
    rw [hres] at hrun
    simp only [Heap.alloc] at hrun
    have hrep : ({ objs := h.objs ++ [resObj] ++ [[(("file_id"), PVal.num sid)]] }
        : Heap).read h.objs.length = some resObj := by
      unfold Heap.read
      rw [List.append_assoc, List.getElem?_append_right (Nat.le_refl _)]
      simp
    simp only [hrep] at hrun
    repeat' split at hrun
    all_goals try cases hrun
    all_goals
      refine ⟨rfl, ?_⟩
      intro a ha
      have hne2 : h.objs.length ≠ a := Nat.ne_of_gt ha
      have hlt1 : a < (h.objs ++ [resObj]).length := by
        simp only [List.length_append, List.length_cons, List.length_nil]
        omega
      have hne1 : (h.objs ++ [resObj]).length ≠ a := by
        simp only [List.length_append, List.length_cons, List.length_nil]
        omega
      first
        | exact read_append_lt ha
        | rw [read_write_ne hne1, read_write_ne hne2, read_append_lt hlt1,
            read_append_lt ha]

/-- C10 witness: the no-mutation statement instantiated on the concrete
results heap. -/
theorem c10_run_no_mutation_witness :
    mongoRun c10heap 0 true 7 = some (4, c10out) ∧
    (4 = c10heap.objs.length ∧
      ∀ a, a < c10heap.objs.length → c10out.read a = c10heap.read a) :=
  ⟨by decide, c10_run_no_mutation c10heap 0 true 7 4 c10out (by decide)⟩

/-- C5 counterexample: rescheduling task 3 of c5edb, whose only tag has
the empty name, yields a new pending task 4 with an empty tag set while
the original had tag id 1: the tag set is not preserved for every
existing task, because the flattened label list joins to the empty
string, which Database.add treats as falsy and drops. -/
theorem c5_empty_tag_lost :
    reschedule (fun _ => none) c5edb 3 9 = (some 4, c5edb2) ∧
    (∃ t ∈ c5edb.tasks, t.id = 3 ∧ t.tags = [1]) ∧
    (∃ t ∈ c5edb2.tasks, t.id = 4 ∧ t.status = TASK_PENDING ∧ t.tags = []) := by
  exact ⟨rfl, by decide, by decide⟩

/-- C6 witness: the amended timestamp statement instantiated on the
running task of c6db. -/
theorem c6_set_status_timestamps_witness :
    (c6db.tasks.find? (fun t2 => t2.id == 1)
      = some { baseTask with id := 1, status := TASK_RUNNING, started_on := some 5 }) ∧
    ((∃ db2, set_status c6db 1 TASK_RUNNING 99 = SetStatusResult.ok db2 ∧
      applyStatus TASK_RUNNING 99
        { baseTask with id := 1, status := TASK_RUNNING, started_on := some 5 }
        ∈ db2.tasks ∧
      (applyStatus TASK_RUNNING 99
        { baseTask with id := 1, status := TASK_RUNNING, started_on := some 5 }).started_on
        = some 99 ∧
      (applyStatus TASK_RUNNING 99
        { baseTask with id := 1, status := TASK_RUNNING, started_on := some 5 }).status
        = TASK_RUNNING) ∧
    (∃ db2, set_status c6db 1 TASK_COMPLETED 99 = SetStatusResult.ok db2 ∧
      applyStatus TASK_COMPLETED 99
        { baseTask with id := 1, status := TASK_RUNNING, started_on := some 5 }
        ∈ db2.tasks ∧
      (applyStatus TASK_COMPLETED 99
        { baseTask with id := 1, status := TASK_RUNNING, started_on := some 5 }).completed_on
        = some 99 ∧
      (applyStatus TASK_COMPLETED 99
        { baseTask with id := 1, status := TASK_RUNNING, started_on := some 5 }).started_on
        = ({ baseTask with id := 1, status := TASK_RUNNING, started_on := some 5 } : Task).started_on) ∧
    set_status c6db 1 TASK_FAILED_ANALYSIS 99 = SetStatusResult.ok c6db ∧
    set_status c6db 1 TASK_FAILED_PROCESSING 99 = SetStatusResult.ok c6db) :=
  ⟨by decide, c6_set_status_timestamps c6db 1 99
    { baseTask with id := 1, status := TASK_RUNNING, started_on := some 5 }
    (by decide)⟩

end Cuckoo
